import Mathlib

/-!
Shallow embedding of `check_trustlines.py`: a trust-line checker for an
XRPL-issued token.  Python dictionaries returned by the ledger are modelled
with `Option`-valued fields (a missing key is `none`); the websocket request
that may raise is modelled as an `Except` outcome supplied by the
environment; the `main` orchestration is modelled as a pure function that
emits a trace of session/network events.
-/

/-- Mirror of one entry of `response.result["lines"]`: a Python dict whose
keys `account`, `currency`, `balance`, `limit` may each be absent. -/
structure TrustLine where
  account : Option String
  currency : Option String
  balance : Option String
  limit : Option String
deriving DecidableEq

/-- Mirror of the `WalletStatus` NamedTuple. -/
structure WalletStatus where
  address : String
  has_trustline : Bool
deriving DecidableEq

/-- Mirror of `response.result` for an `AccountLines` request: `error` is
true when the key `"error"` is present; `lines` is `none` when the key
`"lines"` is absent (the code then uses the default `[]`). -/
structure LedgerResponse where
  error : Bool
  lines : Option (List TrustLine)
deriving DecidableEq

/-- Mirror of the `TrustLineChecker` object's immutable configuration
fields, as set by `__init__` (the mutable `client` field is modelled
separately as explicit state). -/
structure TrustLineChecker where
  websocket_url : String
  token_issuer : String
  token_currency : String
deriving DecidableEq

/-- Python's `s.split(sep)` for a one-character separator, on the character
list of the string: `"a.b".split(".") = ["a", "b"]`, `"".split(".") = [""]`. -/
def splitOnChar (sep : Char) : List Char → List (List Char)
  | [] => [[]]
  | c :: cs =>
    match splitOnChar sep cs with
    | [] => [[]]
    | p :: ps => if c = sep then [] :: p :: ps else (c :: p) :: ps

/-- Mirror of `TrustLineChecker.__init__`: stores the configuration and
normalizes the issuer by `token_issuer.split(".")[-1] if "." in token_issuer
else token_issuer`. -/
def TrustLineChecker.init (websocket_url token_issuer token_currency : String) :
    TrustLineChecker :=
  { websocket_url := websocket_url
    token_issuer :=
      if '.' ∈ token_issuer.data then
        String.mk ((splitOnChar '.' token_issuer.data).getLastD [])
      else token_issuer
    token_currency := token_currency }

/-- The match test of the scan loop in `check_trustline`:
`line.get("account") == self.token_issuer and line.get("currency") ==
self.token_currency` (a missing key gives Python `None`, which never equals
a string). -/
def matchLine (c : TrustLineChecker) (line : TrustLine) : Bool :=
  line.account == some c.token_issuer && line.currency == some c.token_currency

/-- The `for line in lines` loop of `check_trustline`: on the first matching
entry return `line.get("limit", "0") != "0"`; if no entry matches, `False`. -/
def TrustLineChecker.scan_lines (c : TrustLineChecker) : List TrustLine → Bool
  | [] => false
  | line :: rest =>
    if matchLine c line then (line.limit.getD "0") != "0"
    else TrustLineChecker.scan_lines c rest

/-- Mirror of `TrustLineChecker.check_trustline`.  The awaited request is
modelled by its outcome: `Except.error` when the client raised (the
`except Exception` arm returns `False`), `Except.ok` a `LedgerResponse`
otherwise.  An `"error"` key in the result gives `False`; otherwise the
entries of `result.get("lines", [])` are scanned. -/
def TrustLineChecker.check_trustline (c : TrustLineChecker)
    (outcome : Except String LedgerResponse) : Bool :=
  match outcome with
  | Except.error _ => false
  | Except.ok response =>
    if response.error then false
    else TrustLineChecker.scan_lines c (response.lines.getD [])

/-- Mirror of `TrustLineChecker.check_wallets`: one `check_trustline` call
per wallet, in input order, each paired with its address; `query` gives the
outcome of the websocket request for each wallet address. -/
def TrustLineChecker.check_wallets (c : TrustLineChecker)
    (query : String → Except String LedgerResponse) (wallets : List String) :
    List WalletStatus :=
  wallets.map (fun wallet => ⟨wallet, c.check_trustline (query wallet)⟩)

/-- Mirror of `trustlines_count = sum(1 for r in results if r.has_trustline)`
in `main`. -/
def trustlines_count (results : List WalletStatus) : Nat :=
  results.countP (fun r => r.has_trustline)

/-- Mirror of `wallets_without_trustlines = [r.address for r in results if
not r.has_trustline]` in `main`. -/
def wallets_without_trustlines (results : List WalletStatus) : List String :=
  (results.filter (fun r => !r.has_trustline)).map WalletStatus.address

/-- The final summary computed in `main`: total wallets checked, wallets
with a trust line, wallets without (`len(results) - trustlines_count`), and
the addresses missing trust lines. -/
def final_summary (results : List WalletStatus) : Nat × Nat × Nat × List String :=
  (results.length, trustlines_count results,
    results.length - trustlines_count results, wallets_without_trustlines results)

/-- Observable session/network actions of one run of `main`, in order. -/
inductive Event where
  | sessionCreated
  | networkCall (wallet : String)
  | sessionClosed
deriving DecidableEq

/-- Mirror of `TrustLineChecker.close`: `if self.client: await
self.client.close()`.  The `client` state is `none` when `connect` was
never reached; the returned trace records whether the session was closed. -/
def TrustLineChecker.close (client : Option Unit) : List Event :=
  match client with
  | none => []
  | some _ => [Event.sessionClosed]

/-- Truthiness of one entry of `all([websocket_url, token_issuer,
token_currency])`: `os.getenv` yields `None` (absent) or a string, and the
empty string is falsy. -/
def truthy : Option String → Bool
  | none => false
  | some s => s ≠ ""

/-- Outcomes of the external effects of one run of `main`: whether
`load_wallets` returns a list or raises, whether `self.client.open()`
succeeds, the outcome of each wallet's websocket request, and whether
`save_results` succeeds. -/
structure MainEnv where
  load_result : Except String (List String)
  connect_ok : Bool
  query : String → Except String LedgerResponse
  save_ok : Bool

/-- Mirror of `main`'s control flow: the guard on the three required
environment variables, then `try: load_wallets; checker = ...;
checker.connect(); checker.check_wallets(...); save_results ... except:
report ... finally: if checker in locals: checker.close()`.  Returns the
event trace and, when the run completed and results were saved, the saved
results. -/
def runMain (websocket_url token_issuer token_currency : Option String)
    (env : MainEnv) : List Event × Option (List WalletStatus) :=
  if !(truthy websocket_url && truthy token_issuer && truthy token_currency) then
    ([], none)
  else
    match env.load_result with
    | Except.error _ => ([], none)
    | Except.ok wallets =>
      let checker := TrustLineChecker.init (websocket_url.getD "")
        (token_issuer.getD "") (token_currency.getD "")
      if env.connect_ok then
        let results := checker.check_wallets env.query wallets
        let saved := if env.save_ok then some results else none
        (Event.sessionCreated :: (wallets.map Event.networkCall ++
          TrustLineChecker.close (some ())), saved)
      else
        (Event.sessionCreated :: TrustLineChecker.close (some ()), none)

theorem splitOnChar_ne_nil (sep : Char) (l : List Char) : splitOnChar sep l ≠ [] := by
  cases l with
  | nil => simp [splitOnChar]
  | cons c cs =>
    cases h : splitOnChar sep cs with
    | nil => simp [splitOnChar, h]
    | cons p ps =>
      simp only [splitOnChar, h]
      split <;> simp

theorem splitOnChar_of_not_mem (sep : Char) (l : List Char) (h : sep ∉ l) :
    splitOnChar sep l = [l] := by
  induction l with
  | nil => rfl
  | cons c cs ih =>
    have hc : ¬(c = sep) := fun hc => h (hc ▸ List.mem_cons_self c cs)
    have hcs : sep ∉ cs := fun hm => h (List.mem_cons_of_mem _ hm)
    simp [splitOnChar, ih hcs, hc]

theorem splitOnChar_length_two_le (sep : Char) (l : List Char) (h : sep ∈ l) :
    2 ≤ (splitOnChar sep l).length := by
  induction l with
  | nil => cases h
  | cons c cs ih =>
    cases hsplit : splitOnChar sep cs with
    | nil => exact absurd hsplit (splitOnChar_ne_nil sep cs)
    | cons p ps =>
      by_cases hc : c = sep
      · simp [splitOnChar, hsplit, hc]
      · have hm : sep ∈ cs := by
          rcases List.mem_cons.mp h with h1 | h1
          · exact absurd h1.symm hc
          · exact h1
        have h2 := ih hm
        rw [hsplit] at h2
        simp only [splitOnChar, hsplit, if_neg hc, List.length_cons] at *
        omega

theorem not_mem_getLastD_splitOnChar (sep : Char) (l : List Char) :
    sep ∉ (splitOnChar sep l).getLastD [] := by
  induction l with
  | nil => simp [splitOnChar]
  | cons c cs ih =>
    cases hsplit : splitOnChar sep cs with
    | nil => exact absurd hsplit (splitOnChar_ne_nil sep cs)
    | cons p ps =>
      rw [hsplit] at ih
      by_cases hc : c = sep
      · simpa [splitOnChar, hsplit, hc, List.getLastD_cons] using ih
      · cases ps with
        | nil =>
          simp only [splitOnChar, hsplit, if_neg hc, List.getLastD_cons] at *
          simp only [List.getLastD] at *
          intro hmem
          rcases List.mem_cons.mp hmem with h1 | h1
          · exact hc h1.symm
          · exact ih h1
        | cons q qs =>
          simp only [splitOnChar, hsplit, if_neg hc, List.getLastD_cons] at *
          exact ih

theorem exists_prefix_splitOnChar (sep : Char) (l : List Char) (h : sep ∈ l) :
    ∃ pre, l = pre ++ sep :: (splitOnChar sep l).getLastD [] := by
  induction l with
  | nil => cases h
  | cons c cs ih =>
    cases hsplit : splitOnChar sep cs with
    | nil => exact absurd hsplit (splitOnChar_ne_nil sep cs)
    | cons p ps =>
      by_cases hc : c = sep
      · subst hc
        by_cases hm : c ∈ cs
        · obtain ⟨pre, hpre⟩ := ih hm
          rw [hsplit] at hpre
          refine ⟨c :: pre, ?_⟩
          simp only [splitOnChar, hsplit, eq_self_iff_true, if_true,
            List.getLastD_cons, List.cons_append] at hpre ⊢
          rw [hpre]
        · have := splitOnChar_of_not_mem c cs hm
          rw [hsplit] at this
          cases this
          refine ⟨[], ?_⟩
          simp [splitOnChar, hsplit, List.getLastD_cons]
      · have hm : sep ∈ cs := by
          rcases List.mem_cons.mp h with h1 | h1
          · exact absurd h1.symm hc
          · exact h1
        obtain ⟨pre, hpre⟩ := ih hm
        rw [hsplit] at hpre
        cases ps with
        | nil =>
          have h2 := splitOnChar_length_two_le sep cs hm
          rw [hsplit] at h2
          simp at h2
        | cons q qs =>
          refine ⟨c :: pre, ?_⟩
          simp only [splitOnChar, hsplit, if_neg hc, List.getLastD_cons,
            List.cons_append] at *
          rw [hpre]

theorem scan_lines_eq_find (c : TrustLineChecker) (entries : List TrustLine) :
    c.scan_lines entries =
      (match entries.find? (matchLine c) with
        | some l => (l.limit.getD "0") != "0"
        | none => false) := by
  induction entries with
  | nil => rfl
  | cons line rest ih =>
    by_cases h : matchLine c line
    · rw [List.find?_cons_of_pos _ h]
      simp only [TrustLineChecker.scan_lines, if_pos h]
    · rw [List.find?_cons_of_neg _ h]
      simp only [TrustLineChecker.scan_lines, if_neg h]
      exact ih

/-- Claim C1: for any checker and any entry list of a successful ledger
query, `check_trustline` is `true` iff the first entry matching the target
issuer and currency (exact string equality, scan order) exists and its
`limit` (defaulted to `"0"` when absent) is not the string `"0"`; in every
other case it is `false`. -/
theorem check_trustline_true_iff (c : TrustLineChecker) (entries : List TrustLine) :
    c.check_trustline (Except.ok ⟨false, some entries⟩) = true ↔
      ∃ l, entries.find? (matchLine c) = some l ∧ l.limit.getD "0" ≠ "0" := by
  show c.scan_lines ((some entries).getD []) = true ↔ _
  rw [Option.getD_some, scan_lines_eq_find]
  cases hfind : entries.find? (matchLine c) with
  | none => simp
  | some l => simp [bne_iff_ne]

theorem check_trustline_true_iff_witness :
    (TrustLineChecker.init "u" "rIssuer" "CUR").check_trustline
      (Except.ok ⟨false, some [⟨some "rOther", some "CUR", some "1", some "5"⟩,
        ⟨some "rIssuer", some "CUR", some "1", some "7"⟩]⟩) = true :=
  (check_trustline_true_iff (TrustLineChecker.init "u" "rIssuer" "CUR")
    [⟨some "rOther", some "CUR", some "1", some "5"⟩,
      ⟨some "rIssuer", some "CUR", some "1", some "7"⟩]).mpr
    ⟨⟨some "rIssuer", some "CUR", some "1", some "7"⟩, by decide, by decide⟩

/-- Claim C2: `check_wallets` returns exactly one `WalletStatus` per input
address, carrying that address, in input order — so the result has the same
length as the input and its addresses are the input list itself. -/
theorem check_wallets_length_and_order (c : TrustLineChecker)
    (query : String → Except String LedgerResponse) (wallets : List String) :
    (c.check_wallets query wallets).length = wallets.length ∧
    (c.check_wallets query wallets).map WalletStatus.address = wallets := by
  constructor
  · simp [TrustLineChecker.check_wallets]
  · simp [TrustLineChecker.check_wallets, List.map_map, Function.comp_def]

/-- Claim C5: when the ledger response carries a protocol-level `error`
field, `check_trustline` returns `false` instead of propagating, and a
batch run still produces one result per input address. -/
theorem check_trustline_error_response_false (c : TrustLineChecker)
    (response : LedgerResponse) (h : response.error = true) :
    c.check_trustline (Except.ok response) = false ∧
    ∀ (query : String → Except String LedgerResponse) (wallets : List String),
      (c.check_wallets query wallets).length = wallets.length := by
  constructor
  · simp [TrustLineChecker.check_trustline, h]
  · intro query wallets
    simp [TrustLineChecker.check_wallets]

theorem check_trustline_error_response_false_witness :
    (TrustLineChecker.init "u" "rIssuer" "CUR").check_trustline
        (Except.ok ⟨true, some [⟨some "rIssuer", some "CUR", some "1", some "7"⟩]⟩) = false ∧
    ∀ (query : String → Except String LedgerResponse) (wallets : List String),
      ((TrustLineChecker.init "u" "rIssuer" "CUR").check_wallets query wallets).length =
        wallets.length :=
  check_trustline_error_response_false (TrustLineChecker.init "u" "rIssuer" "CUR")
    ⟨true, some [⟨some "rIssuer", some "CUR", some "1", some "7"⟩]⟩ rfl

/-- Claim C9: a matching entry whose record has no `limit` key is treated
as limit `"0"` (the `.get("limit", "0")` default), so the scan returns
`false` when the first matching entry lacks the field. -/
theorem missing_limit_treated_as_zero (c : TrustLineChecker)
    (entries : List TrustLine) (l : TrustLine)
    (hfind : entries.find? (matchLine c) = some l) (hlim : l.limit = none) :
    c.check_trustline (Except.ok ⟨false, some entries⟩) = false := by
  show c.scan_lines ((some entries).getD []) = false
  rw [Option.getD_some, scan_lines_eq_find, hfind]
  simp [hlim]

theorem missing_limit_treated_as_zero_witness :
    (TrustLineChecker.init "u" "rIssuer" "CUR").check_trustline
      (Except.ok ⟨false, some [⟨some "rIssuer", some "CUR", some "1", none⟩]⟩) = false :=
  missing_limit_treated_as_zero (TrustLineChecker.init "u" "rIssuer" "CUR")
    [⟨some "rIssuer", some "CUR", some "1", none⟩]
    ⟨some "rIssuer", some "CUR", some "1", none⟩ (by decide) rfl

/-- Claim C10: a successful response (no `error` field) with no `lines`
field at all is treated as an empty trust-line list, so `check_trustline`
returns `false` without failing. -/
theorem missing_lines_field_false (c : TrustLineChecker)
    (response : LedgerResponse) (he : response.error = false)
    (hl : response.lines = none) :
    c.check_trustline (Except.ok response) = false := by
  simp [TrustLineChecker.check_trustline, he, hl, TrustLineChecker.scan_lines]

theorem missing_lines_field_false_witness :
    (TrustLineChecker.init "u" "rIssuer" "CUR").check_trustline
      (Except.ok ⟨false, none⟩) = false :=
  missing_lines_field_false (TrustLineChecker.init "u" "rIssuer" "CUR")
    ⟨false, none⟩ rfl rfl

/-- Claim C3: a failed request for one address is caught and becomes a
`false` result at that position, while the batch still yields a result
with the right address at every position (so later addresses are still
evaluated). -/
theorem check_wallets_failure_isolated (c : TrustLineChecker)
    (query : String → Except String LedgerResponse) (wallets : List String)
    (i : Nat) (e : String) (hi : i < wallets.length)
    (he : query (wallets.getD i "") = Except.error e) :
    ((c.check_wallets query wallets).getD i ⟨"", true⟩).has_trustline = false ∧
    (c.check_wallets query wallets).length = wallets.length ∧
    ∀ j, ((c.check_wallets query wallets).getD j ⟨"", true⟩).address =
      wallets.getD j "" := by
  refine ⟨?_, by simp [TrustLineChecker.check_wallets], ?_⟩
  · rw [List.getD_eq_getElem?_getD, List.getElem?_eq_getElem hi,
      Option.getD_some] at he
    simp [TrustLineChecker.check_wallets, List.getElem?_eq_getElem hi, he,
      TrustLineChecker.check_trustline]
  · intro j
    by_cases hj : j < wallets.length
    · simp [TrustLineChecker.check_wallets, List.getElem?_eq_getElem hj]
    · have hj2 : wallets[j]? = none := List.getElem?_eq_none (Nat.le_of_not_lt hj)
      simp [TrustLineChecker.check_wallets, hj2]

theorem check_wallets_failure_isolated_witness :
    (((TrustLineChecker.init "u" "rIssuer" "CUR").check_wallets
        (fun w => if w = "wFail" then Except.error "socket dropped"
          else Except.ok ⟨false, some [⟨some "rIssuer", some "CUR", some "1", some "7"⟩]⟩)
        ["wFail", "wNext"]).getD 0 ⟨"", true⟩).has_trustline = false ∧
    ((TrustLineChecker.init "u" "rIssuer" "CUR").check_wallets
        (fun w => if w = "wFail" then Except.error "socket dropped"
          else Except.ok ⟨false, some [⟨some "rIssuer", some "CUR", some "1", some "7"⟩]⟩)
        ["wFail", "wNext"]).length = (["wFail", "wNext"] : List String).length ∧
    ∀ j, (((TrustLineChecker.init "u" "rIssuer" "CUR").check_wallets
        (fun w => if w = "wFail" then Except.error "socket dropped"
          else Except.ok ⟨false, some [⟨some "rIssuer", some "CUR", some "1", some "7"⟩]⟩)
        ["wFail", "wNext"]).getD j ⟨"", true⟩).address =
      (["wFail", "wNext"] : List String).getD j "" :=
  check_wallets_failure_isolated (TrustLineChecker.init "u" "rIssuer" "CUR")
    (fun w => if w = "wFail" then Except.error "socket dropped"
      else Except.ok ⟨false, some [⟨some "rIssuer", some "CUR", some "1", some "7"⟩]⟩)
    ["wFail", "wNext"] 0 "socket dropped" (by decide) rfl

/-- Claim C4: `__init__` stores, as the comparable issuer, exactly the part
of the configured issuer after its last `.` separator when one is present
(nothing after that point contains another separator), and the unchanged
string when no separator is present. -/
theorem init_normalizes_issuer (websocket_url token_issuer token_currency : String) :
    (('.' ∈ token_issuer.data) →
      ∃ pre, token_issuer.data = pre ++ '.' ::
          (TrustLineChecker.init websocket_url token_issuer token_currency).token_issuer.data ∧
        '.' ∉ (TrustLineChecker.init websocket_url token_issuer token_currency).token_issuer.data) ∧
    (('.' ∉ token_issuer.data) →
      (TrustLineChecker.init websocket_url token_issuer token_currency).token_issuer =
        token_issuer) := by
  constructor
  · intro hmem
    simp only [TrustLineChecker.init, if_pos hmem]
    obtain ⟨pre, hpre⟩ := exists_prefix_splitOnChar '.' token_issuer.data hmem
    exact ⟨pre, hpre, not_mem_getLastD_splitOnChar '.' token_issuer.data⟩
  · intro hmem
    simp only [TrustLineChecker.init, if_neg hmem]

theorem init_normalizes_issuer_witness :
    ∃ pre, ("ns.rABC123" : String).data = pre ++ '.' ::
        (TrustLineChecker.init "url" "ns.rABC123" "XYZ").token_issuer.data ∧
      '.' ∉ (TrustLineChecker.init "url" "ns.rABC123" "XYZ").token_issuer.data :=
  (init_normalizes_issuer "url" "ns.rABC123" "XYZ").1 (by decide)

/-- Claim C7: the final summary is a pure function of the results: total
count, count of `true` entries, count of `false` entries (equal to total
minus the `true` count), and the addresses of the `false` entries in their
original order (a subsequence of all addresses); on
`[(A,true),(B,false),(C,false)]` it gives `(3, 1, 2, [B, C])`. -/
theorem final_summary_correct (results : List WalletStatus) :
    (final_summary results).1 = results.length ∧
    (final_summary results).2.1 + (final_summary results).2.2.1 = results.length ∧
    (final_summary results).2.2.1 = results.countP (fun r => !r.has_trustline) ∧
    (final_summary results).2.2.2 =
      (results.filter (fun r => !r.has_trustline)).map WalletStatus.address ∧
    (final_summary results).2.2.2.Sublist (results.map WalletStatus.address) ∧
    final_summary [⟨"A", true⟩, ⟨"B", false⟩, ⟨"C", false⟩] = (3, 1, 2, ["B", "C"]) := by
  have hsplit : results.length = results.countP (fun r => r.has_trustline) +
      results.countP (fun r => !r.has_trustline) := by
    simpa using List.length_eq_countP_add_countP (fun r => r.has_trustline) (l := results)
  have hle := List.countP_le_length (p := fun r => r.has_trustline) (l := results)
  refine ⟨rfl, ?_, ?_, rfl, ?_, by decide⟩
  · simp only [final_summary, trustlines_count]
    omega
  · simp only [final_summary, trustlines_count]
    omega
  · exact List.Sublist.map WalletStatus.address
      (List.filter_sublist (l := results))

/-- Claim C6: on every exit path of `main` a created session is closed
exactly once (closed-count equals created-count, never more than one), and
`close` on a never-opened client does nothing. -/
theorem session_close_discipline (websocket_url token_issuer token_currency : Option String)
    (env : MainEnv) :
    ((runMain websocket_url token_issuer token_currency env).1.count
        Event.sessionCreated ≤ 1 ∧
      (runMain websocket_url token_issuer token_currency env).1.count
          Event.sessionClosed =
        (runMain websocket_url token_issuer token_currency env).1.count
          Event.sessionCreated) ∧
    TrustLineChecker.close none = [] := by
  refine ⟨?_, rfl⟩
  have hmap : ∀ (ws : List String) (e : Event), (e = Event.sessionCreated ∨
      e = Event.sessionClosed) → (ws.map Event.networkCall).count e = 0 := by
    intro ws e he
    rw [List.count_eq_zero]
    intro hmem
    obtain ⟨w, _, hw⟩ := List.mem_map.mp hmem
    rcases he with h | h <;> simp [h] at hw
  unfold runMain
  split
  · simp
  · split
    · simp
    · split
      · simp [TrustLineChecker.close, List.count_cons, List.count_append,
          hmap _ Event.sessionCreated (Or.inl rfl), hmap _ Event.sessionClosed (Or.inr rfl)]
      · simp [TrustLineChecker.close, List.count_cons]

/-- Claim C8: if any of the three required settings is absent, `main`
returns at the pre-flight guard: no session is created and no network call
is made (the run's trace is empty). -/
theorem missing_config_halts (websocket_url token_issuer token_currency : Option String)
    (env : MainEnv)
    (h : websocket_url = none ∨ token_issuer = none ∨ token_currency = none) :
    runMain websocket_url token_issuer token_currency env = ([], none) := by
  unfold runMain
  rcases h with h | h | h <;> subst h <;> simp [truthy]

/-- Concrete environment used to instantiate `missing_config_halts`. -/
def envNoUrl : MainEnv :=
  ⟨Except.ok ["w1"], true, fun _ => Except.ok ⟨false, none⟩, true⟩

theorem missing_config_halts_witness :
    runMain none (some "rIssuer") (some "CUR") envNoUrl = ([], none) :=
  missing_config_halts none (some "rIssuer") (some "CUR") envNoUrl (Or.inl rfl)

example :
    TrustLineChecker.init "url" "ns.rABC123" "XYZ" =
      { websocket_url := "url", token_issuer := "rABC123", token_currency := "XYZ" } := by
  decide

example : TrustLineChecker.init "url" "rPLAIN" "XYZ" =
    { websocket_url := "url", token_issuer := "rPLAIN", token_currency := "XYZ" } := by
  decide

example :
    (TrustLineChecker.init "u" "rI" "CUR").check_trustline
      (Except.ok ⟨false, some [⟨some "rI", some "CUR", some "5", some "10"⟩]⟩) = true := by
  decide

example :
    (TrustLineChecker.init "u" "rI" "CUR").check_trustline
      (Except.ok ⟨false, some [⟨some "rI", some "CUR", some "5", some "0"⟩]⟩) = false := by
  decide
